import Mathlib

/-!
Shallow embedding of the CSV ingestion pipeline and record-edit paths of the
video CRM application (src/lib/supabase.ts, src/App.tsx,
src/components/VideoTable.tsx), together with proofs checking the
natural-language specification against the code.

Host-environment behaviour (JavaScript `new Date(...)` parsing and
`toISOString`, and `uuidv4()`) is abstracted as explicit parameters:
a `JsDate` structure carrying the date parser and formatter, an `Int`
timestamp `now` for the moment of the call, and a `uuid : Nat → String`
supply of generated identifiers.  The store (the `videos` table) is a list
of `StoredVideo` records; query and upsert calls are modelled as pure list
operations that always succeed.
-/

namespace Crm

instance {ε α : Type} [DecidableEq ε] [DecidableEq α] : DecidableEq (Except ε α) :=
  fun x y =>
    match x, y with
    | Except.ok a, Except.ok b =>
      if h : a = b then Decidable.isTrue (by rw [h])
      else Decidable.isFalse (fun hh => by injection hh; contradiction)
    | Except.error a, Except.error b =>
      if h : a = b then Decidable.isTrue (by rw [h])
      else Decidable.isFalse (fun hh => by injection hh; contradiction)
    | Except.ok _, Except.error _ => Decidable.isFalse (fun hh => by injection hh)
    | Except.error _, Except.ok _ => Decidable.isFalse (fun hh => by injection hh)

/-- JavaScript `String.prototype.split` with a one-character separator,
on character lists (`''.split(sep)` is `['']`). -/
def splitOnChar (sep : Char) : List Char → List (List Char)
  | [] => [[]]
  | c :: cs =>
    if c = sep then [] :: splitOnChar sep cs
    else
      match splitOnChar sep cs with
      | [] => [[c]]
      | g :: gs => (c :: g) :: gs

/-- JavaScript `String.prototype.split` with a one-character separator. -/
def jsSplit (sep : Char) (s : String) : List String :=
  (splitOnChar sep s.data).map (fun l => ⟨l⟩)

/-- Whitespace as trimmed by JavaScript `String.prototype.trim` (the ASCII
part, which is all the inputs here contain). -/
def isWsChar (c : Char) : Bool :=
  c = ' ' || c = '\t' || c = '\n' || c = '\r' || c = '\x0b' || c = '\x0c'

/-- JavaScript `String.prototype.trim`. -/
def jsTrim (s : String) : String :=
  ⟨((s.data.dropWhile isWsChar).reverse.dropWhile isWsChar).reverse⟩

/-- JavaScript `String.prototype.toLowerCase` (ASCII behaviour). -/
def jsToLower (s : String) : String := ⟨s.data.map Char.toLower⟩

/-- Status union type `'pending' | 'authorized' | 'unauthorized'`. -/
inductive Status where
  | pending
  | authorized
  | unauthorized
deriving DecidableEq

/-- Abstraction of the JavaScript Date host functions used by the code:
`parse s` is `new Date(s).getTime()` (`none` when the result is NaN) and
`iso t` is `new Date(t).toISOString()`. -/
structure JsDate where
  parse : String → Option Int
  iso : Int → String

/-- `CSVColumnMap` from src/lib/supabase.ts: zero-based column position of
each of the four logical fields. -/
structure CSVColumnMap where
  name : Nat
  post_date : Nat
  creator_username : Nat
  gmv : Nat
deriving DecidableEq

/-- The data carried by the `Required column not found: ...` error thrown by
`findColumnIndices`. -/
structure MissingColumn where
  field : String
  possibleNames : List String
deriving DecidableEq

/-- Accepted header synonyms for field `name` (from `columnMappings`). -/
def nameSynonyms : List String := ["Video name", "video name", "name", "title"]

/-- Accepted header synonyms for field `post_date`. -/
def postDateSynonyms : List String :=
  ["Video post date", "video post date", "post date", "date", "posted", "post_date"]

/-- Accepted header synonyms for field `creator_username`. -/
def creatorSynonyms : List String :=
  ["Creator username", "creator username", "creator", "username", "creator_username"]

/-- Accepted header synonyms for field `gmv`. -/
def gmvSynonyms : List String := ["GMV", "gmv", "revenue", "earnings"]

/-- `headerRow.split(',').map(h => h.trim().toLowerCase())`. -/
def headerLabels (headerRow : String) : List String :=
  (jsSplit ',' headerRow).map (fun h => jsToLower (jsTrim h))

/-- JavaScript `Array.prototype.findIndex`: index of the first element
satisfying the predicate (here: membership in the synonym list). -/
def firstMatchIdx (names : List String) : List String → Option Nat
  | [] => none
  | h :: rest =>
    if names.contains h then some 0 else (firstMatchIdx names rest).map (· + 1)

/-- One iteration of the `for (const [field, possibleNames] of ...)` loop of
`findColumnIndices`: look the field up, or throw `Required column not found`. -/
def resolveColumn (headers : List String) (field : String) (names : List String) :
    Except MissingColumn Nat :=
  match firstMatchIdx names headers with
  | some i => Except.ok i
  | none => Except.error ⟨field, names⟩

/-- `findColumnIndices` from src/lib/supabase.ts: resolve the four fields in
declaration order, throwing at the first one that matches no header label. -/
def findColumnIndices (headerRow : String) : Except MissingColumn CSVColumnMap :=
  match resolveColumn (headerLabels headerRow) "name" nameSynonyms with
  | Except.error e => Except.error e
  | Except.ok n =>
    match resolveColumn (headerLabels headerRow) "post_date" postDateSynonyms with
    | Except.error e => Except.error e
    | Except.ok p =>
      match resolveColumn (headerLabels headerRow) "creator_username" creatorSynonyms with
      | Except.error e => Except.error e
      | Except.ok c =>
        match resolveColumn (headerLabels headerRow) "gmv" gmvSynonyms with
        | Except.error e => Except.error e
        | Except.ok g => Except.ok ⟨n, p, c, g⟩

/-- `parseDate` from src/lib/supabase.ts: `new Date(dateString)`; if the
result is NaN an internal error is thrown and caught, returning
`new Date().toISOString()` (the current timestamp) instead. -/
def parseDate (jd : JsDate) (now : Int) (dateString : String) : String :=
  match jd.parse dateString with
  | some t => jd.iso t
  | none => jd.iso now

/-- The row parser's character filter `replace(/[^0-9.-]+/g, '')`:
keep digits, dots and minus signs. -/
def isNumericChar (c : Char) : Bool := c.isDigit || c = '.' || c = '-'

/-- `gmvStr.replace(/[^0-9.-]+/g, '')`. -/
def stripNonNumeric (s : String) : String := ⟨s.data.filter isNumericChar⟩

/-- Digit list to natural number, most significant first. -/
def digitsToNat (ds : List Char) : Nat :=
  ds.foldl (fun n c => 10 * n + (c.toNat - 48)) 0

/-- JavaScript `parseFloat` restricted to its behaviour on strings over the
alphabet `[0-9.-]` (the only strings it receives after `stripNonNumeric`):
an optional leading sign, then the longest prefix `digits [. digits]`;
`none` (NaN) when no digit is consumed.  Values are modelled as rationals. -/
def jsParseFloat (s : String) : Option Rat :=
  let cs := s.data
  let signed : Bool × List Char :=
    match cs with
    | '-' :: rest => (true, rest)
    | '+' :: rest => (false, rest)
    | _ => (false, cs)
  let intPart := signed.2.takeWhile Char.isDigit
  let afterInt := signed.2.dropWhile Char.isDigit
  let fracPart : List Char :=
    match afterInt with
    | '.' :: r => r.takeWhile Char.isDigit
    | _ => []
  if intPart.isEmpty && fracPart.isEmpty then none
  else
    let num : Int := (digitsToNat (intPart ++ fracPart) : Int)
    some (mkRat (if signed.1 then -num else num) (10 ^ fracPart.length))

/-- Remove the first `'@'` of a character list, as JavaScript
`s.replace('@', '')` does (a string pattern replaces only the first
occurrence, wherever it is). -/
def removeFirstAt : List Char → List Char
  | [] => []
  | c :: cs => if c = '@' then cs else c :: removeFirstAt cs

/-- `creatorUsername.replace('@', '')` from `parseCSVLine`. -/
def normalizeCreator (s : String) : String := ⟨removeFirstAt s.data⟩

/-- `CSVVideoData` from src/lib/supabase.ts (`name` is `string | null`). -/
structure CSVVideoData where
  name : Option String
  post_date : String
  creator_username : String
  gmv : Rat
deriving DecidableEq

/-- `line.split(',').map(field => field.trim())`. -/
def rowFields (line : String) : List String :=
  (jsSplit ',' line).map jsTrim

/-- `Math.max(...Object.values(columnMap))`. -/
def maxIndex (cm : CSVColumnMap) : Nat :=
  max (max (max cm.name cm.post_date) cm.creator_username) cm.gmv

/-- Error-message shape shared by every throw site of `parseCSVLine`:
`` `Line ${lineNumber}: ...` ``. -/
def lineMsg (n : Nat) (text : String) : String :=
  "Line " ++ toString n ++ ": " ++ text

/-- `parseCSVLine` from src/lib/supabase.ts.  Thrown `Error`s are modelled as
`Except.error` carrying the message string.  The trailing `try`/`catch` of
the original wraps date errors, but `parseDate` never throws, so the
success branch is direct. -/
def parseCSVLine (jd : JsDate) (now : Int) (line : String) (lineNumber : Nat)
    (cm : CSVColumnMap) : Except String CSVVideoData :=
  let fields := rowFields line
  if fields.length < maxIndex cm + 1 then
    Except.error (lineMsg lineNumber
      ("Not enough fields. Expected at least " ++ toString (maxIndex cm + 1) ++ " fields"))
  else
    let nameField := fields.getD cm.name ""
    let postDate := fields.getD cm.post_date ""
    let creatorUsername := fields.getD cm.creator_username ""
    let gmvStr := fields.getD cm.gmv ""
    if postDate = "" then Except.error (lineMsg lineNumber "Post Date cannot be empty")
    else if creatorUsername = "" then
      Except.error (lineMsg lineNumber "Creator Username cannot be empty")
    else if gmvStr = "" then Except.error (lineMsg lineNumber "GMV cannot be empty")
    else
      match jsParseFloat (stripNonNumeric gmvStr) with
      | none => Except.error (lineMsg lineNumber ("Invalid GMV value: " ++ gmvStr))
      | some gmv =>
        Except.ok
          { name := if nameField = "" then none else some nameField
            post_date := parseDate jd now postDate
            creator_username := normalizeCreator creatorUsername
            gmv := gmv }

/-- One row of the `videos` table, with the columns `saveVideos` writes. -/
structure StoredVideo where
  id : String
  video_id : String
  name : Option String
  post_date : String
  creator_username : String
  gmv : Rat
  spark_code : String
  status : Status
  user_id : String
  created_at : String
deriving DecidableEq

/-- `VideoEntry` from src/types.ts (`name` may be null, see App.tsx which
stores `csvData.name` into it). -/
structure VideoEntry where
  id : String
  video_id : String
  name : Option String
  postDate : String
  creatorUsername : String
  gmv : Rat
  hasSparkCode : Bool
  dateAdded : String
  tags : List String
  status : Status
  sparkCode : String
deriving DecidableEq

/-- The per-row store query of `checkForDuplicates`: `eq('user_id', userId)`,
`eq('name', video.name)`, `eq('post_date', parseDate(video.postDate))`,
`eq('creator_username', video.creatorUsername)`. -/
def matchesTriple (jd : JsDate) (now : Int) (userId : String) (v : VideoEntry)
    (r : StoredVideo) : Bool :=
  decide (r.user_id = userId ∧ r.name = v.name ∧
    r.post_date = parseDate jd now v.postDate ∧ r.creator_username = v.creatorUsername)

/-- `checkForDuplicates` from src/lib/supabase.ts: classify each row as
duplicate (some stored record matches the triple) or new, preserving input
order in both output lists. -/
def checkForDuplicates (jd : JsDate) (now : Int) (videos : List VideoEntry)
    (userId : String) (store : List StoredVideo) : List VideoEntry × List VideoEntry :=
  match videos with
  | [] => ([], [])
  | v :: rest =>
    let r := checkForDuplicates jd now rest userId store
    if store.any (matchesTriple jd now userId v) then (v :: r.1, r.2) else (r.1, v :: r.2)

/-- The object literal `saveVideos` upserts for one new video:
`id: uuidv4(), video_id: '', ..., spark_code: video.sparkCode || '',
status: video.status, user_id: userId, created_at: new Date().toISOString()`.
Note `video.sparkCode || ''` is the identity on strings. -/
def writtenRecord (jd : JsDate) (now : Int) (userId : String) (uuid : String)
    (v : VideoEntry) : StoredVideo :=
  { id := uuid
    video_id := ""
    name := v.name
    post_date := parseDate jd now v.postDate
    creator_username := v.creatorUsername
    gmv := v.gmv
    spark_code := v.sparkCode
    status := v.status
    user_id := userId
    created_at := jd.iso now }

/-- The `newVideos.map(video => ({id: uuidv4(), ...}))` upsert payload, with
the k-th fresh identifier drawn for the k-th row. -/
def upsertRows (jd : JsDate) (now : Int) (userId : String) (uuid : Nat → String) :
    Nat → List VideoEntry → List StoredVideo
  | _, [] => []
  | k, v :: rest =>
    writtenRecord jd now userId (uuid k) v :: upsertRows jd now userId uuid (k + 1) rest

/-- Return value of `saveVideos`. -/
structure SaveResult where
  inserted : Nat
  duplicates : Nat
deriving DecidableEq

/-- `saveVideos` from src/lib/supabase.ts: classify, upsert the new rows when
there are any, and return the counts. -/
def saveVideos (jd : JsDate) (now : Int) (uuid : Nat → String)
    (videos : List VideoEntry) (userId : String) (store : List StoredVideo) :
    List StoredVideo × SaveResult :=
  let cls := checkForDuplicates jd now videos userId store
  let store2 :=
    if cls.2.length > 0 then store ++ upsertRows jd now userId uuid 0 cls.2 else store
  (store2, ⟨cls.2.length, cls.1.length⟩)

/-- `UploadSummaryData` from src/types.ts. -/
structure UploadSummaryData where
  newEntries : Nat
  duplicates : Nat
  errors : Nat
  total : Nat
  errorMessages : List String
deriving DecidableEq

/-- The `VideoEntry` object `handleFileSelect` pushes for each successfully
parsed CSV row. -/
def toVideoEntry (jd : JsDate) (now : Int) (d : CSVVideoData) : VideoEntry :=
  { id := ""
    video_id := ""
    name := d.name
    postDate := d.post_date
    creatorUsername := d.creator_username
    gmv := d.gmv
    hasSparkCode := false
    dateAdded := jd.iso now
    tags := []
    status := Status.pending
    sparkCode := "" }

/-- `text.split('\n').map(l => l.trim()).filter(l => l.length > 0)`. -/
def uploadLines (text : String) : List String :=
  ((jsSplit '\n' text).map jsTrim).filter (fun l => decide (0 < l.data.length))

/-- Index/line pairs for the loop `for (let i = 1; i < lines.length; i++)`. -/
def enumDataLines : Nat → List String → List (Nat × String)
  | _, [] => []
  | i, l :: ls => (i, l) :: enumDataLines (i + 1) ls

/-- The row-processing loop of `handleFileSelect`: parse each data line with
line number `i + 1`, pushing successes into `newVideos` and error messages
into `errorMessages`, both in order. -/
def processRows (jd : JsDate) (now : Int) (cm : CSVColumnMap) :
    List (Nat × String) → List VideoEntry × List String
  | [] => ([], [])
  | p :: rest =>
    let r := processRows jd now cm rest
    match parseCSVLine jd now p.2 (p.1 + 1) cm with
    | Except.ok d => (toVideoEntry jd now d :: r.1, r.2)
    | Except.error msg => (r.1, msg :: r.2)

/-- Message of the error `handleFileSelect` reports for a file with fewer
than two non-blank lines. -/
def insufficientRowsMessage : String :=
  "CSV file must contain a header row and at least one data row"

/-- Message of the error thrown by `findColumnIndices`, as caught and
reported by `handleFileSelect`. -/
def missingColumnMessage (e : MissingColumn) : String :=
  "Required column not found: " ++ e.field ++ ". Possible names: " ++
    String.intercalate ", " e.possibleNames

/-- `handleFileSelect` from src/App.tsx: returns the upload summary it sets
and the store after the (possible) save.  The `duplicates` local is declared
`let duplicates = 0` and never updated; the result of `saveVideos` is
discarded; the summary is built from the parse loop's outputs alone. -/
def handleFileSelect (jd : JsDate) (now : Int) (uuid : Nat → String)
    (userId : String) (text : String) (store : List StoredVideo) :
    UploadSummaryData × List StoredVideo :=
  let lines := uploadLines text
  if lines.length < 2 then
    (⟨0, 0, 1, 0, [insufficientRowsMessage]⟩, store)
  else
    match findColumnIndices (lines.headD "") with
    | Except.error e => (⟨0, 0, 1, 0, [missingColumnMessage e]⟩, store)
    | Except.ok cm =>
      let r := processRows jd now cm (enumDataLines 1 (lines.drop 1))
      let store2 :=
        if r.1.length > 0 then (saveVideos jd now uuid r.1 userId store).1 else store
      (⟨r.1.length, 0, r.2.length, lines.length - 1, r.2⟩, store2)

/-- The `updates` object of `handleSaveVideo` in src/App.tsx; `none` models
an absent property. -/
structure VideoUpdates where
  video_id : Option String
  sparkCode : Option String
  status : Option Status
deriving DecidableEq

/-- The conditional spreads of `handleSaveVideo`:
`...(updates.video_id && { video_id: updates.video_id })` etc.  A field is
written only when present and truthy (non-empty for the two strings; a
status value is always truthy). -/
def applyUpdates (u : VideoUpdates) (r : StoredVideo) : StoredVideo :=
  let r1 :=
    match u.video_id with
    | some v => if v = "" then r else { r with video_id := v }
    | none => r
  let r2 :=
    match u.sparkCode with
    | some s => if s = "" then r1 else { r1 with spark_code := s }
    | none => r1
  match u.status with
  | some st => { r2 with status := st }
  | none => r2

/-- `handleSaveVideo` from src/App.tsx, effect on the `videos` table:
`update(...).eq('id', id).eq('user_id', user.id)`. -/
def handleSaveVideo (userId : String) (id : String) (u : VideoUpdates)
    (store : List StoredVideo) : List StoredVideo :=
  store.map (fun r => if r.id = id ∧ r.user_id = userId then applyUpdates u r else r)

/-- The editing state of `VideoTable` (id, video_id, sparkCode fields). -/
structure EditingVideo where
  id : String
  video_id : String
  sparkCode : String
deriving DecidableEq

/-- The `updates` object built by `handleSave` in
src/components/VideoTable.tsx: both strings are always sent, and status is
forced to `'authorized'` when the spark code is non-blank after trimming. -/
def combinedUpdates (ev : EditingVideo) : VideoUpdates :=
  { video_id := some ev.video_id
    sparkCode := some ev.sparkCode
    status := if jsTrim ev.sparkCode = "" then none else some Status.authorized }

/-- `handleSave` in VideoTable followed by `onSaveVideo = handleSaveVideo`:
the combined update path. -/
def handleSave (userId : String) (ev : EditingVideo) (store : List StoredVideo) :
    List StoredVideo :=
  handleSaveVideo userId ev.id (combinedUpdates ev) store

/-- Spec-side (claim C7) formalisation of "matches no header label". -/
def fieldUnresolved (headers : List String) (names : List String) : Bool :=
  headers.all (fun h => !(names.contains h))

/-- Spec-side (claim C7) first unresolved field, scanning fields in the
order name, post_date, creator_username, gmv, paired with its accepted
names. -/
def firstMissingColumn (headerRow : String) : Option MissingColumn :=
  let headers := headerLabels headerRow
  if fieldUnresolved headers nameSynonyms then some ⟨"name", nameSynonyms⟩
  else if fieldUnresolved headers postDateSynonyms then
    some ⟨"post_date", postDateSynonyms⟩
  else if fieldUnresolved headers creatorSynonyms then
    some ⟨"creator_username", creatorSynonyms⟩
  else if fieldUnresolved headers gmvSynonyms then some ⟨"gmv", gmvSynonyms⟩
  else none

/-- Concrete date host model for witnesses: every string parses to epoch 0,
timestamps print as decimal integers. -/
def jd0 : JsDate := ⟨fun _ => some 0, fun t => toString t⟩

/-- Concrete date host model whose parser always fails (every date string is
invalid). -/
def jdNone : JsDate := ⟨fun _ => none, fun t => toString t⟩

/-- Concrete identifier supply for witnesses. -/
def uuid0 : Nat → String := fun n => toString n

/-- Column map used by concrete witnesses (header `name,date,username,gmv`). -/
def cm0 : CSVColumnMap := ⟨0, 1, 2, 3⟩

/-- Pre-existing stored record matched by the upload of `cexText` (used by
the C1 counterexample). -/
def cexStored : StoredVideo :=
  ⟨"id9", "", some "x", "0", "bob", 5, "", Status.pending, "u", "0"⟩

/-- Concrete upload text: a resolving header plus one valid data row. -/
def cexText : String := "name,date,username,gmv\nx,2024-01-05,bob,5"

/-- The `VideoEntry` the upload flow builds from the data row of `cexText`. -/
def cexEntry : VideoEntry :=
  ⟨"", "", some "x", "0", "bob", 5, false, "0", [], Status.pending, ""⟩

/-! ## Helper lemmas -/

theorem str_data_append (a b : String) : (a ++ b).data = a.data ++ b.data := by
  cases a; cases b; rfl

theorem removeFirstAt_of_not_mem (l : List Char) (h : '@' ∉ l) :
    removeFirstAt l = l := by
  induction l with
  | nil => rfl
  | cons c cs ih =>
    have h1 : ¬ c = '@' := fun hc => h (by rw [hc]; exact List.mem_cons_self _ _)
    have h2 : '@' ∉ cs := fun hm => h (List.mem_cons_of_mem c hm)
    unfold removeFirstAt
    rw [if_neg h1, ih h2]

theorem removeFirstAt_append (l m : List Char) (h : '@' ∉ l) :
    removeFirstAt (l ++ '@' :: m) = l ++ m := by
  induction l with
  | nil => simp [removeFirstAt]
  | cons c cs ih =>
    have h1 : ¬ c = '@' := fun hc => h (by rw [hc]; exact List.mem_cons_self _ _)
    have h2 : '@' ∉ cs := fun hm => h (List.mem_cons_of_mem c hm)
    simp only [List.cons_append, removeFirstAt, if_neg h1]
    exact congrArg (List.cons c) (ih h2)

theorem firstMatchIdx_eq_none_iff (names : List String) (headers : List String) :
    firstMatchIdx names headers = none ↔ fieldUnresolved headers names = true := by
  induction headers with
  | nil => simp [firstMatchIdx, fieldUnresolved]
  | cons h t ih =>
    unfold firstMatchIdx fieldUnresolved
    rw [List.all_cons]
    by_cases hc : names.contains h = true
    · rw [if_pos hc, hc]
      constructor
      · intro hx
        exact absurd hx (by simp)
      · intro hx
        simp at hx
    · have hcf : names.contains h = false := by
        revert hc
        cases names.contains h <;> simp
      rw [if_neg hc, hcf]
      simp only [Bool.not_false, Bool.true_and, Option.map_eq_none']
      simp only [fieldUnresolved] at ih
      exact ih

theorem parseDate_stable (jd : JsDate) (n1 n2 : Int) (s : String)
    (h : (jd.parse s).isSome = true) : parseDate jd n1 s = parseDate jd n2 s := by
  rcases Option.isSome_iff_exists.1 h with ⟨t, ht⟩
  unfold parseDate
  rw [ht]

theorem parseCSVLine_error_lineMsg (jd : JsDate) (now : Int) (line : String)
    (n : Nat) (cm : CSVColumnMap) (msg : String)
    (h : parseCSVLine jd now line n cm = Except.error msg) :
    ∃ t, msg = lineMsg n t := by
  unfold parseCSVLine at h
  dsimp only at h
  split at h
  · injection h with h'
    exact ⟨_, h'.symm⟩
  · split at h
    · injection h with h'
      exact ⟨_, h'.symm⟩
    · split at h
      · injection h with h'
        exact ⟨_, h'.symm⟩
      · split at h
        · injection h with h'
          exact ⟨_, h'.symm⟩
        · split at h
          · injection h with h'
            exact ⟨_, h'.symm⟩
          · exact absurd h (by simp)

/-- Auxiliary functions describing the per-line outcome of the parse loop. -/
def parsedEntryOf (jd : JsDate) (now : Int) (cm : CSVColumnMap)
    (p : Nat × String) : Option VideoEntry :=
  match parseCSVLine jd now p.2 (p.1 + 1) cm with
  | Except.ok d => some (toVideoEntry jd now d)
  | Except.error _ => none

/-- The error message (if any) of the parse of one enumerated data line. -/
def parseErrorOf (jd : JsDate) (now : Int) (cm : CSVColumnMap)
    (p : Nat × String) : Option String :=
  match parseCSVLine jd now p.2 (p.1 + 1) cm with
  | Except.ok _ => none
  | Except.error m => some m

theorem processRows_eq (jd : JsDate) (now : Int) (cm : CSVColumnMap)
    (ps : List (Nat × String)) :
    processRows jd now cm ps =
      (ps.filterMap (parsedEntryOf jd now cm), ps.filterMap (parseErrorOf jd now cm)) := by
  induction ps with
  | nil => rfl
  | cons p rest ih =>
    unfold processRows
    rw [ih]
    cases hp : parseCSVLine jd now p.2 (p.1 + 1) cm <;>
      simp [List.filterMap_cons, parsedEntryOf, parseErrorOf, hp]

theorem length_filterMap_eq_countP {α β : Type} (f : α → Option β) (l : List α) :
    (l.filterMap f).length = l.countP (fun a => (f a).isSome) := by
  induction l with
  | nil => rfl
  | cons a l ih =>
    cases hf : f a <;> simp [List.filterMap_cons, hf, List.countP_cons, ih]

theorem checkForDuplicates_all_dup (jd : JsDate) (now : Int) (userId : String)
    (store : List StoredVideo) (videos : List VideoEntry)
    (h : ∀ v ∈ videos, store.any (matchesTriple jd now userId v) = true) :
    checkForDuplicates jd now videos userId store = (videos, []) := by
  induction videos with
  | nil => rfl
  | cons v rest ih =>
    unfold checkForDuplicates
    rw [ih (fun w hw => h w (List.mem_cons_of_mem v hw))]
    rw [if_pos (h v (List.mem_cons_self v rest))]

theorem checkForDuplicates_dups_match (jd : JsDate) (now : Int) (userId : String)
    (store : List StoredVideo) : ∀ videos : List VideoEntry,
    ∀ v ∈ (checkForDuplicates jd now videos userId store).1,
      store.any (matchesTriple jd now userId v) = true := by
  intro videos
  induction videos with
  | nil => intro v hv; cases hv
  | cons w rest ih =>
    intro v hv
    unfold checkForDuplicates at hv
    dsimp only at hv
    by_cases hc : store.any (matchesTriple jd now userId w) = true
    · rw [if_pos hc] at hv
      rcases List.mem_cons.1 hv with h | h
      · exact h ▸ hc
      · exact ih v h
    · rw [if_neg hc] at hv
      exact ih v hv

theorem checkForDuplicates_cover (jd : JsDate) (now : Int) (userId : String)
    (store : List StoredVideo) : ∀ (videos : List VideoEntry), ∀ v ∈ videos,
    v ∈ (checkForDuplicates jd now videos userId store).1 ∨
      v ∈ (checkForDuplicates jd now videos userId store).2 := by
  intro videos
  induction videos with
  | nil => intro v hv; cases hv
  | cons w rest ih =>
    intro v hv
    unfold checkForDuplicates
    dsimp only
    rcases List.mem_cons.1 hv with h | h
    · subst h
      by_cases hc : store.any (matchesTriple jd now userId v) = true
      · rw [if_pos hc]; exact Or.inl (List.mem_cons_self _ _)
      · rw [if_neg hc]; exact Or.inr (List.mem_cons_self _ _)
    · rcases ih v h with hd | hn
      · by_cases hc : store.any (matchesTriple jd now userId w) = true
        · rw [if_pos hc]; exact Or.inl (List.mem_cons_of_mem _ hd)
        · rw [if_neg hc]; exact Or.inl hd
      · by_cases hc : store.any (matchesTriple jd now userId w) = true
        · rw [if_pos hc]; exact Or.inr hn
        · rw [if_neg hc]; exact Or.inr (List.mem_cons_of_mem _ hn)

theorem checkForDuplicates_new_sub (jd : JsDate) (now : Int) (userId : String)
    (store : List StoredVideo) : ∀ (videos : List VideoEntry),
    ∀ v ∈ (checkForDuplicates jd now videos userId store).2, v ∈ videos := by
  intro videos
  induction videos with
  | nil => intro v hv; cases hv
  | cons w rest ih =>
    intro v hv
    unfold checkForDuplicates at hv
    dsimp only at hv
    by_cases hc : store.any (matchesTriple jd now userId w) = true
    · rw [if_pos hc] at hv
      exact List.mem_cons_of_mem _ (ih v hv)
    · rw [if_neg hc] at hv
      rcases List.mem_cons.1 hv with h | h
      · exact h ▸ List.mem_cons_self _ _
      · exact List.mem_cons_of_mem _ (ih v h)

theorem upsertRows_mem (jd : JsDate) (now : Int) (userId : String)
    (uuid : Nat → String) : ∀ (vs : List VideoEntry) (k : Nat) (r : StoredVideo),
    r ∈ upsertRows jd now userId uuid k vs →
    ∃ j v, v ∈ vs ∧ r = writtenRecord jd now userId (uuid j) v := by
  intro vs
  induction vs with
  | nil => intro k r hr; cases hr
  | cons v rest ih =>
    intro k r hr
    unfold upsertRows at hr
    rcases List.mem_cons.1 hr with h | h
    · exact ⟨k, v, List.mem_cons_self _ _, h⟩
    · rcases ih (k + 1) r h with ⟨j, v', hv', hr'⟩
      exact ⟨j, v', List.mem_cons_of_mem _ hv', hr'⟩

theorem upsertRows_mem_of_mem (jd : JsDate) (now : Int) (userId : String)
    (uuid : Nat → String) : ∀ (vs : List VideoEntry) (k : Nat) (v : VideoEntry),
    v ∈ vs → ∃ j, writtenRecord jd now userId (uuid j) v ∈
      upsertRows jd now userId uuid k vs := by
  intro vs
  induction vs with
  | nil => intro k v hv; cases hv
  | cons w rest ih =>
    intro k v hv
    rcases List.mem_cons.1 hv with h | h
    · subst h
      exact ⟨k, List.mem_cons_self _ _⟩
    · rcases ih (k + 1) v h with ⟨j, hj⟩
      exact ⟨j, List.mem_cons_of_mem _ hj⟩

/-! ## Claim theorems -/

/-- Claim C2, counterexample.  The claim says the row parser's
creator-username normalization removes only a single leading `@` and leaves
any `@` occurring elsewhere untouched.  But `replace('@', '')` removes the
first `@` wherever it occurs: the input `ali@ce` has no leading `@`, so the
claim requires it to be left untouched, yet the parser turns it into
`alice`. -/
theorem creator_normalization_counterexample :
    parseCSVLine jd0 0 "x,d,ali@ce,5" 2 cm0 =
      Except.ok ⟨some "x", "0", "alice", 5⟩ ∧
    "ali@ce".data.headD ' ' ≠ '@' ∧
    ("alice" : String) ≠ "ali@ce" := by
  refine ⟨by decide, by decide, by decide⟩

/-- Claim C2, amended.  The normalization removes the first occurrence of
`@` anywhere in the string (a leading `@` when present, since that is the
first occurrence) and leaves every later `@` untouched; if the string
contains no `@` it is unchanged; in particular `"@alice"` and `"alice"`
both normalize to `"alice"`. -/
theorem normalizeCreator_removes_first_at_sign :
    (∀ a b : String, '@' ∉ a.data →
      normalizeCreator (a ++ "@" ++ b) = a ++ b) ∧
    (∀ s : String, '@' ∉ s.data → normalizeCreator s = s) ∧
    normalizeCreator "@alice" = "alice" ∧ normalizeCreator "alice" = "alice" := by
  refine ⟨?_, ?_, by decide, by decide⟩
  · intro a b h
    have hdata : (a ++ "@" ++ b).data = a.data ++ '@' :: b.data := by
      rw [str_data_append, str_data_append]
      simp
    have hres : (a ++ b).data = a.data ++ b.data := str_data_append a b
    unfold normalizeCreator
    rw [hdata, removeFirstAt_append _ _ h]
    cases a with
    | mk da =>
      cases b with
      | mk db => rfl
  · intro s h
    cases s with
    | mk d =>
      unfold normalizeCreator
      rw [removeFirstAt_of_not_mem _ h]

/-- Witness for the amended C2 theorem at a concrete input: the first `@` of
`ali@ce` is removed even though it is not leading. -/
theorem normalizeCreator_removes_first_at_sign_witness :
    normalizeCreator ("ali" ++ "@" ++ "ce") = "ali" ++ "ce" :=
  normalizeCreator_removes_first_at_sign.1 "ali" "ce" (by decide)

/-- Claim C5, confirmed.  For every date string on which the host calendar
parse fails, `parseDate` returns the formatted current timestamp instead of
failing; consequently, for every data line with enough fields whose
required fields are non-empty and whose gmv parses, `parseCSVLine` succeeds
for every date-parsing oracle — an unparseable post date never fails the
row. -/
theorem parseDate_fallback_total (jd : JsDate) (now : Int) :
    (∀ s, jd.parse s = none → parseDate jd now s = jd.iso now) ∧
    (∀ (line : String) (n : Nat) (cm : CSVColumnMap),
      maxIndex cm + 1 ≤ (rowFields line).length →
      (rowFields line).getD cm.post_date "" ≠ "" →
      (rowFields line).getD cm.creator_username "" ≠ "" →
      (rowFields line).getD cm.gmv "" ≠ "" →
      (jsParseFloat (stripNonNumeric ((rowFields line).getD cm.gmv ""))).isSome = true →
      ∃ d, parseCSVLine jd now line n cm = Except.ok d) := by
  constructor
  · intro s hs
    unfold parseDate
    rw [hs]
  · intro line n cm hlen hpd hcu hg hparse
    unfold parseCSVLine
    dsimp only
    rw [if_neg (by omega), if_neg hpd, if_neg hcu, if_neg hg]
    rcases Option.isSome_iff_exists.1 hparse with ⟨g, hgp⟩
    rw [hgp]
    exact ⟨_, rfl⟩

/-- Witness for C5: with a date oracle that rejects every string,
`parseDate` substitutes the current timestamp and the row still parses. -/
theorem parseDate_fallback_total_witness :
    parseDate jdNone 7 "garbage" = jdNone.iso 7 ∧
    ∃ d, parseCSVLine jdNone 7 "x,garbage,bob,5" 2 cm0 = Except.ok d := by
  refine ⟨(parseDate_fallback_total jdNone 7).1 "garbage" rfl, ?_⟩
  exact (parseDate_fallback_total jdNone 7).2 "x,garbage,bob,5" 2 cm0
    (by decide) (by decide) (by decide) (by decide) (by decide)

/-- Claim C6, confirmed.  Saving an edit through the combined update path
(`handleSave` in VideoTable followed by `handleSaveVideo`) with a spark
code that is non-empty after trimming makes the edited record's status
`authorized`, regardless of its prior status. -/
theorem handleSave_nonempty_spark_authorizes (userId : String)
    (ev : EditingVideo) (store : List StoredVideo)
    (h : jsTrim ev.sparkCode ≠ "") :
    ∀ r ∈ handleSave userId ev store, r.id = ev.id → r.user_id = userId →
      r.status = Status.authorized := by
  intro r hr hid huid
  unfold handleSave handleSaveVideo at hr
  rcases List.mem_map.1 hr with ⟨r0, h0, hr0⟩
  by_cases hc : r0.id = ev.id ∧ r0.user_id = userId
  · rw [if_pos hc] at hr0
    subst hr0
    unfold applyUpdates combinedUpdates
    dsimp only
    rw [if_neg h]
  · rw [if_neg hc] at hr0
    subst hr0
    exact absurd ⟨hid, huid⟩ hc

/-- Concrete editing state for the C6 witness. -/
def ev6 : EditingVideo := ⟨"a", "V", "S"⟩

/-- Concrete stored record for the C6 witness (status is `unauthorized`
before the edit). -/
def rec6 : StoredVideo :=
  ⟨"a", "", some "n", "d", "c", 1, "", Status.unauthorized, "u", "t"⟩

/-- Witness for C6: the non-blank spark code `"S"` flips the matching
record's status to `authorized`. -/
theorem handleSave_nonempty_spark_authorizes_witness :
    jsTrim ev6.sparkCode ≠ "" ∧
    ((handleSave "u" ev6 [rec6]).headD rec6).status = Status.authorized := by
  refine ⟨by decide, ?_⟩
  exact handleSave_nonempty_spark_authorizes "u" ev6 [rec6] (by decide)
    ((handleSave "u" ev6 [rec6]).headD rec6) (by decide) (by decide) (by decide)

/-- Claim C7, confirmed.  `findColumnIndices` fails exactly when some
required field matches no header label, and the error it reports names
exactly the first unresolved field scanning the fields in declaration order
name, post_date, creator_username, gmv, together with that field's accepted
names (`firstMissingColumn` transcribes the claim's wording).  Since the
result is a single `Except.error`, at most one missing field is ever
reported. -/
theorem findColumnIndices_first_missing (header : String) (e : MissingColumn) :
    findColumnIndices header = Except.error e ↔
      firstMissingColumn header = some e := by
  unfold findColumnIndices firstMissingColumn resolveColumn
  dsimp only
  cases h1 : firstMatchIdx nameSynonyms (headerLabels header) with
  | none =>
    have u1 := (firstMatchIdx_eq_none_iff nameSynonyms (headerLabels header)).1 h1
    rw [if_pos u1]
    constructor
    · intro hx
      injection hx with hx'
      rw [hx']
    · intro hx
      injection hx with hx'
      rw [hx']
  | some i1 =>
    have u1 : ¬ fieldUnresolved (headerLabels header) nameSynonyms = true := by
      intro hu
      rw [(firstMatchIdx_eq_none_iff nameSynonyms (headerLabels header)).2 hu] at h1
      cases h1
    rw [if_neg u1]
    cases h2 : firstMatchIdx postDateSynonyms (headerLabels header) with
    | none =>
      have u2 := (firstMatchIdx_eq_none_iff postDateSynonyms (headerLabels header)).1 h2
      rw [if_pos u2]
      constructor
      · intro hx
        injection hx with hx'
        rw [hx']
      · intro hx
        injection hx with hx'
        rw [hx']
    | some i2 =>
      have u2 : ¬ fieldUnresolved (headerLabels header) postDateSynonyms = true := by
        intro hu
        rw [(firstMatchIdx_eq_none_iff postDateSynonyms (headerLabels header)).2 hu] at h2
        cases h2
      rw [if_neg u2]
      cases h3 : firstMatchIdx creatorSynonyms (headerLabels header) with
      | none =>
        have u3 := (firstMatchIdx_eq_none_iff creatorSynonyms (headerLabels header)).1 h3
        rw [if_pos u3]
        constructor
        · intro hx
          injection hx with hx'
          rw [hx']
        · intro hx
          injection hx with hx'
          rw [hx']
      | some i3 =>
        have u3 : ¬ fieldUnresolved (headerLabels header) creatorSynonyms = true := by
          intro hu
          rw [(firstMatchIdx_eq_none_iff creatorSynonyms (headerLabels header)).2 hu] at h3
          cases h3
        rw [if_neg u3]
        cases h4 : firstMatchIdx gmvSynonyms (headerLabels header) with
        | none =>
          have u4 := (firstMatchIdx_eq_none_iff gmvSynonyms (headerLabels header)).1 h4
          rw [if_pos u4]
          constructor
          · intro hx
            injection hx with hx'
            rw [hx']
          · intro hx
            injection hx with hx'
            rw [hx']
        | some i4 =>
          have u4 : ¬ fieldUnresolved (headerLabels header) gmvSynonyms = true := by
            intro hu
            rw [(firstMatchIdx_eq_none_iff gmvSynonyms (headerLabels header)).2 hu] at h4
            cases h4
          rw [if_neg u4]
          constructor
          · intro hx
            cases hx
          · intro hx
            cases hx

/-- Claim C9, counterexample.  The claim says every successfully parsed row
has a non-negative gmv.  The stripper keeps minus signs and the parser
performs no sign check, so the row `x,d,bob,-5` parses successfully with
gmv `-5 < 0`. -/
theorem parseCSVLine_negative_gmv_counterexample :
    parseCSVLine jd0 0 "x,d,bob,-5" 2 cm0 =
      Except.ok ⟨some "x", "0", "bob", -5⟩ ∧ ((-5 : Rat) < 0) := by
  refine ⟨by decide, by decide⟩

/-- Claim C9, amended.  Every successfully parsed row's gmv is exactly the
number obtained by parsing the raw gmv string after stripping every
character that is not a digit, dot or minus sign (so that parse must
succeed), but no non-negativity constraint holds: the value may be
negative. -/
theorem parseCSVLine_gmv_from_parseFloat (jd : JsDate) (now : Int)
    (line : String) (n : Nat) (cm : CSVColumnMap) (d : CSVVideoData)
    (h : parseCSVLine jd now line n cm = Except.ok d) :
    jsParseFloat (stripNonNumeric ((rowFields line).getD cm.gmv "")) =
      some d.gmv := by
  unfold parseCSVLine at h
  dsimp only at h
  split at h
  · exact absurd h (by simp)
  · split at h
    · exact absurd h (by simp)
    · split at h
      · exact absurd h (by simp)
      · split at h
        · exact absurd h (by simp)
        · rename_i hsome
          split at h
          · exact absurd h (by simp)
          · rename_i g hg
            injection h with h'
            rw [hg, ← h']

/-- Witness for the amended C9 theorem: at the concrete row `x,d,bob,-5`
the stripped gmv string parses to the (negative) gmv of the parsed row. -/
theorem parseCSVLine_gmv_from_parseFloat_witness :
    jsParseFloat (stripNonNumeric ((rowFields "x,d,bob,-5").getD cm0.gmv "")) =
      some ((⟨some "x", "0", "bob", -5⟩ : CSVVideoData).gmv) :=
  parseCSVLine_gmv_from_parseFloat jd0 0 "x,d,bob,-5" 2 cm0 _ (by decide)

/-- Claim C10, confirmed.  Through the combined edit path, an update whose
videoId or sparkCode is absent or the empty string leaves the corresponding
stored column unchanged; a non-empty stored videoId or sparkCode can never
become empty through this path; and every column other than video_id,
spark_code and status is unchanged by `applyUpdates`.  Moreover every
record of the store after `handleSaveVideo` is either an untouched input
record or the `applyUpdates` image of one. -/
theorem applyUpdates_frame :
    (∀ (u : VideoUpdates) (r : StoredVideo),
      ((u.video_id = none ∨ u.video_id = some "") →
        (applyUpdates u r).video_id = r.video_id) ∧
      ((u.sparkCode = none ∨ u.sparkCode = some "") →
        (applyUpdates u r).spark_code = r.spark_code) ∧
      (r.video_id ≠ "" → (applyUpdates u r).video_id ≠ "") ∧
      (r.spark_code ≠ "" → (applyUpdates u r).spark_code ≠ "") ∧
      (applyUpdates u r).id = r.id ∧
      (applyUpdates u r).name = r.name ∧
      (applyUpdates u r).post_date = r.post_date ∧
      (applyUpdates u r).creator_username = r.creator_username ∧
      (applyUpdates u r).gmv = r.gmv ∧
      (applyUpdates u r).user_id = r.user_id ∧
      (applyUpdates u r).created_at = r.created_at) ∧
    (∀ (u : VideoUpdates) (userId vid : String) (store : List StoredVideo)
        (r : StoredVideo), r ∈ handleSaveVideo userId vid u store →
      ∃ r0, r0 ∈ store ∧ (r = r0 ∨ r = applyUpdates u r0)) := by
  constructor
  · intro u r
    rcases u with ⟨uv, us, ust⟩
    rcases uv with _ | v <;> rcases us with _ | s <;> rcases ust with _ | st <;>
      unfold applyUpdates <;> dsimp only <;> (try split_ifs) <;>
      simp_all
  · intro u userId vid store r hr
    unfold handleSaveVideo at hr
    rcases List.mem_map.1 hr with ⟨r0, h0, hr0⟩
    by_cases hc : r0.id = vid ∧ r0.user_id = userId
    · rw [if_pos hc] at hr0
      exact ⟨r0, h0, Or.inr hr0.symm⟩
    · rw [if_neg hc] at hr0
      exact ⟨r0, h0, Or.inl hr0.symm⟩

/-- Concrete update for the C10 witness: both strings present but empty. -/
def u10 : VideoUpdates := ⟨some "", some "", none⟩

/-- Concrete stored record for the C10 witness. -/
def rec10 : StoredVideo :=
  ⟨"a", "V", some "n", "d", "c", 1, "S", Status.pending, "u", "t"⟩

/-- Witness for C10: an empty-string update leaves the stored videoId and
sparkCode unchanged. -/
theorem applyUpdates_frame_witness :
    (applyUpdates u10 rec10).video_id = rec10.video_id ∧
    (applyUpdates u10 rec10).spark_code = rec10.spark_code :=
  ⟨(applyUpdates_frame.1 u10 rec10).1 (Or.inr rfl),
    (applyUpdates_frame.1 u10 rec10).2.1 (Or.inr rfl)⟩

/-- Claim C8, confirmed.  The row loop of `handleFileSelect` is best-effort
at row granularity: its outputs are exactly the per-line successes and the
per-line error messages (so a failure on one line never suppresses the
processing of any other line), and every failing data line contributes a
message carrying that line's 1-based line number (`lineMsg (i + 1)` for the
line at index `i` of the filtered file, whose 1-based number counts the
header as line 1). -/
theorem processRows_best_effort (jd : JsDate) (now : Int) (cm : CSVColumnMap)
    (ps : List (Nat × String)) :
    processRows jd now cm ps =
      (ps.filterMap (parsedEntryOf jd now cm),
        ps.filterMap (parseErrorOf jd now cm)) ∧
    (∀ p ∈ ps, ∀ msg, parseCSVLine jd now p.2 (p.1 + 1) cm = Except.error msg →
      msg ∈ (processRows jd now cm ps).2 ∧ ∃ t, msg = lineMsg (p.1 + 1) t) := by
  refine ⟨processRows_eq jd now cm ps, ?_⟩
  intro p hp msg hmsg
  refine ⟨?_, parseCSVLine_error_lineMsg jd now p.2 (p.1 + 1) cm msg hmsg⟩
  rw [processRows_eq]
  exact List.mem_filterMap.2 ⟨p, hp, by simp [parseErrorOf, hmsg]⟩

/-- Concrete enumerated data lines for the C8 witness: line 2 parses, line 3
(`,,,`) fails on an empty post date. -/
def ps8 : List (Nat × String) := [(1, "x,d,bob,5"), (2, ",,,")]

/-- Witness for C8: the failing line's message carries its 1-based line
number and is collected while the other line is still parsed. -/
theorem processRows_best_effort_witness :
    lineMsg 3 "Post Date cannot be empty" ∈ (processRows jd0 0 cm0 ps8).2 ∧
    (processRows jd0 0 cm0 ps8).1.length = 1 := by
  refine ⟨?_, by decide⟩
  exact ((processRows_best_effort jd0 0 cm0 ps8).2 (2, ",,,") (by decide)
    (lineMsg 3 "Post Date cannot be empty") (by decide)).1

/-- Claim C1, counterexample.  Uploading a file whose only data row
duplicates a record already in the store: the summary reports
`newEntries = 1` although zero rows were inserted (the store is returned
unchanged), and reports `duplicates = 0` although the duplicate check
classified that row as pre-existing (`saveVideos` returned
`duplicates = 1`). -/
theorem upload_summary_counts_counterexample :
    handleFileSelect jd0 0 uuid0 "u" cexText [cexStored] =
      (⟨1, 0, 0, 1, []⟩, [cexStored]) ∧
    (saveVideos jd0 0 uuid0 [cexEntry] "u" [cexStored]).2 = ⟨0, 1⟩ := by
  refine ⟨by decide, by decide⟩

/-- Claim C1, amended.  For every top-level upload whose header resolves,
the summary's `total` is the number of non-blank data lines and `errors`
the number of data lines whose parse failed, as claimed; but `newEntries`
is the number of rows successfully parsed (not the number actually
inserted), and `duplicates` is always 0 in this path (the duplicate check's
count is computed inside `saveVideos` and discarded). -/
theorem handleFileSelect_summary_contract (jd : JsDate) (now : Int)
    (uuid : Nat → String) (userId text : String) (store : List StoredVideo)
    (cm : CSVColumnMap)
    (hlen : 2 ≤ (uploadLines text).length)
    (hcm : findColumnIndices ((uploadLines text).headD "") = Except.ok cm) :
    (handleFileSelect jd now uuid userId text store).1.total =
      (uploadLines text).length - 1 ∧
    (handleFileSelect jd now uuid userId text store).1.errors =
      (enumDataLines 1 ((uploadLines text).drop 1)).countP
        (fun p => (parseErrorOf jd now cm p).isSome) ∧
    (handleFileSelect jd now uuid userId text store).1.newEntries =
      (enumDataLines 1 ((uploadLines text).drop 1)).countP
        (fun p => (parsedEntryOf jd now cm p).isSome) ∧
    (handleFileSelect jd now uuid userId text store).1.duplicates = 0 := by
  unfold handleFileSelect
  dsimp only
  rw [if_neg (by omega), hcm]
  dsimp only
  rw [processRows_eq]
  dsimp only
  refine ⟨rfl, ?_, ?_, rfl⟩
  · exact length_filterMap_eq_countP _ _
  · exact length_filterMap_eq_countP _ _

/-- Witness for the amended C1 theorem at a concrete upload. -/
theorem handleFileSelect_summary_contract_witness :
    (handleFileSelect jd0 0 uuid0 "u" cexText []).1.total =
      (uploadLines cexText).length - 1 ∧
    (handleFileSelect jd0 0 uuid0 "u" cexText []).1.duplicates = 0 := by
  have h := handleFileSelect_summary_contract jd0 0 uuid0 "u" cexText [] cm0
    (by decide) (by decide)
  exact ⟨h.1, h.2.2.2⟩

/-- Input row for the C4 counterexample and witness: it carries a non-empty
sparkCode and a non-pending status. -/
def cexEntry4 : VideoEntry :=
  ⟨"zz", "QQ", some "x", "d", "bob", 5, true, "t", [], Status.authorized, "SPARK"⟩

/-- Claim C4, counterexample.  The claim says every persisted record has an
empty sparkCode and status `pending` regardless of what the input row
carried.  But `saveVideos` writes `spark_code: video.sparkCode || ''` and
`status: video.status`: a row carrying sparkCode `"SPARK"` and status
`authorized` is persisted with those very values. -/
theorem writtenRecord_copies_input_counterexample :
    (saveVideos jd0 0 uuid0 [cexEntry4] "u" []).1 =
      [⟨"0", "", some "x", "0", "bob", 5, "SPARK", Status.authorized, "u", "0"⟩] ∧
    ("SPARK" : String) ≠ "" ∧ Status.authorized ≠ Status.pending := by
  refine ⟨by decide, by decide, by decide⟩

/-- Claim C4, amended.  Every record `saveVideos` adds to the store has an
identifier drawn fresh from the id generator, an empty videoId, and a
creation timestamp equal to processing time; but its sparkCode and status
are copied from the input row rather than forced to empty/`pending`.  Rows
built by the top-level upload flow (`toVideoEntry`) always carry an empty
sparkCode and status `pending`, so records created by an upload do get
those values. -/
theorem saveVideos_written_record_fields (jd : JsDate) (now : Int)
    (uuid : Nat → String) (videos : List VideoEntry) (userId : String)
    (store : List StoredVideo) :
    (∀ r ∈ (saveVideos jd now uuid videos userId store).1,
      r ∈ store ∨
        (r.video_id = "" ∧ r.created_at = jd.iso now ∧ (∃ j, r.id = uuid j) ∧
          ∃ v ∈ videos, r.spark_code = v.sparkCode ∧ r.status = v.status ∧
            r.name = v.name ∧ r.post_date = parseDate jd now v.postDate ∧
            r.creator_username = v.creatorUsername ∧ r.gmv = v.gmv ∧
            r.user_id = userId)) ∧
    (∀ d, (toVideoEntry jd now d).sparkCode = "" ∧
      (toVideoEntry jd now d).status = Status.pending) := by
  constructor
  · intro r hr
    unfold saveVideos at hr
    dsimp only at hr
    split at hr
    · rcases List.mem_append.1 hr with h | h
      · exact Or.inl h
      · rcases upsertRows_mem jd now userId uuid _ 0 r h with ⟨j, v, hv, hr'⟩
        subst hr'
        refine Or.inr ⟨rfl, rfl, ⟨j, rfl⟩, v,
          checkForDuplicates_new_sub jd now userId store videos v hv,
          rfl, rfl, rfl, rfl, rfl, rfl, rfl⟩
    · exact Or.inl hr
  · intro d
    exact ⟨rfl, rfl⟩

/-- The record `saveVideos` writes for `cexEntry4` in the C4 witness. -/
def rec4 : StoredVideo :=
  ⟨"0", "", some "x", "0", "bob", 5, "SPARK", Status.authorized, "u", "0"⟩

/-- Witness for the amended C4 theorem: the freshly written record has an
empty videoId and the processing-time creation timestamp. -/
theorem saveVideos_written_record_fields_witness :
    rec4.video_id = "" ∧ rec4.created_at = jd0.iso 0 := by
  have h := (saveVideos_written_record_fields jd0 0 uuid0 [cexEntry4] "u" []).1
    rec4 (by decide)
  rcases h with h | h
  · exact absurd h (by decide)
  · exact ⟨h.1, h.2.1⟩

theorem saveVideos_of_all_dup (jd : JsDate) (now : Int) (uuid : Nat → String)
    (videos : List VideoEntry) (userId : String) (st : List StoredVideo)
    (h : checkForDuplicates jd now videos userId st = (videos, [])) :
    saveVideos jd now uuid videos userId st = (st, ⟨0, videos.length⟩) := by
  unfold saveVideos
  rw [h]
  rfl

/-- Claim C3, confirmed.  Saving a batch of valid parsed rows (rows whose
post date the date oracle can parse, as every row produced by the parser
from a parseable date is) and then saving the identical batch again for the
same user with no other change to the store classifies every row of the
second call as a duplicate: the second call inserts zero records, reports
every row duplicate, and leaves the store unchanged. -/
theorem saveVideos_idempotent (jd : JsDate) (now1 now2 : Int)
    (u1 u2 : Nat → String) (videos : List VideoEntry) (userId : String)
    (store : List StoredVideo)
    (hvalid : ∀ v ∈ videos, (jd.parse v.postDate).isSome = true) :
    (saveVideos jd now2 u2 videos userId
        (saveVideos jd now1 u1 videos userId store).1).2 =
      ⟨0, videos.length⟩ ∧
    (saveVideos jd now2 u2 videos userId
        (saveVideos jd now1 u1 videos userId store).1).1 =
      (saveVideos jd now1 u1 videos userId store).1 := by
  have hsub : ∀ r ∈ store, r ∈ (saveVideos jd now1 u1 videos userId store).1 := by
    intro r hr
    unfold saveVideos
    dsimp only
    split
    · exact List.mem_append.2 (Or.inl hr)
    · exact hr
  have hall : ∀ v ∈ videos,
      ((saveVideos jd now1 u1 videos userId store).1).any
        (matchesTriple jd now2 userId v) = true := by
    intro v hv
    rcases checkForDuplicates_cover jd now1 userId store videos v hv with hdup | hnew
    · have h1 := checkForDuplicates_dups_match jd now1 userId store videos v hdup
      rcases List.any_eq_true.1 h1 with ⟨r, hr, hm⟩
      refine List.any_eq_true.2 ⟨r, hsub r hr, ?_⟩
      unfold matchesTriple at hm ⊢
      rw [← parseDate_stable jd now1 now2 v.postDate (hvalid v hv)]
      exact hm
    · rcases upsertRows_mem_of_mem jd now1 userId u1 _ 0 v hnew with ⟨j, hj⟩
      have hlen : 0 < (checkForDuplicates jd now1 videos userId store).2.length :=
        List.length_pos.2 (List.ne_nil_of_mem hnew)
      have hrmem : writtenRecord jd now1 userId (u1 j) v ∈
          (saveVideos jd now1 u1 videos userId store).1 := by
        unfold saveVideos
        dsimp only
        rw [if_pos hlen]
        exact List.mem_append.2 (Or.inr hj)
      refine List.any_eq_true.2 ⟨writtenRecord jd now1 userId (u1 j) v, hrmem, ?_⟩
      unfold matchesTriple writtenRecord
      rw [← parseDate_stable jd now1 now2 v.postDate (hvalid v hv)]
      simp
  have hcls : checkForDuplicates jd now2 videos userId
      (saveVideos jd now1 u1 videos userId store).1 = (videos, []) :=
    checkForDuplicates_all_dup jd now2 userId _ videos hall
  have hfin := saveVideos_of_all_dup jd now2 u2 videos userId
    (saveVideos jd now1 u1 videos userId store).1 hcls
  rw [hfin]
  exact ⟨rfl, rfl⟩

/-- Witness for C3 at a concrete batch: the second identical save inserts
nothing and classifies the single row as duplicate. -/
theorem saveVideos_idempotent_witness :
    (saveVideos jd0 1 uuid0 [cexEntry] "u"
        (saveVideos jd0 0 uuid0 [cexEntry] "u" []).1).2 = ⟨0, 1⟩ :=
  (saveVideos_idempotent jd0 0 1 uuid0 uuid0 [cexEntry] "u" [] (by decide)).1

end Crm
